import Mathlib

/-!
Verification of the BrokeCraft texture-atlas build scripts.

This file gives a shallow embedding of the two Python scripts
`misc/build_atlas.py` (Selective builder) and `misc/build_full_atlas.py`
(Full builder), and proves the testable properties of the specification
against that embedding.

Modelling conventions:
* An image is its width, height and a total pixel function; the PIL calls
  `Image.new`, `Image.paste` (RGBA source, no mask: full overwrite) and
  `ImageDraw.rectangle` are modelled pixelwise.
* File-system state is explicit: a directory-exists flag plus the directory
  contents; a file is either readable as an image or present-but-unreadable
  (`corrupt`), in which case `PIL.Image.open` raises.
* Python string operations on file names are modelled structurally over the
  character list so that they compute by kernel reduction:
  `str.replace(".png", "")` (deletes every occurrence, left to right),
  `str.endswith(".png")`, and the code-point lexicographic order used by
  `sorted`.
* `math.ceil(math.sqrt(n))` and `math.ceil(n / cols)` are modelled as the
  exact ceilings over the naturals.
* Text rendering for the reference-image labels is an external collaborator
  (font loading with fallback); it is passed in as an opaque function
  argument `drawText`.
-/

namespace BrokeCraft

/-- RGBA pixel value (red, green, blue, alpha). -/
abbrev RGBA := Nat × Nat × Nat × Nat

/-- An in-memory RGBA image: dimensions plus a total pixel function. -/
structure Image where
  width : Nat
  height : Nat
  px : Nat → Nat → RGBA

/-- PIL `Image.new(mode, (w, h), color)`: constant image. -/
def Image.new (w h : Nat) (c : RGBA) : Image :=
  { width := w, height := h, px := fun _ _ => c }

/-- PIL `base.paste(img, (ox, oy))` for an RGBA source with no mask:
the source rectangle fully overwrites the destination pixels. -/
def Image.paste (base img : Image) (ox oy : Nat) : Image :=
  { base with px := fun x y =>
      if ox ≤ x ∧ x < ox + img.width ∧ oy ≤ y ∧ y < oy + img.height then
        img.px (x - ox) (y - oy)
      else base.px x y }

/-- PIL `ImageDraw.rectangle([(x0, y0), (x1, y1)], fill = c)`: both corners
are inclusive, the fill value overwrites the pixels. -/
def fillRect (img : Image) (x0 y0 x1 y1 : Nat) (c : RGBA) : Image :=
  { img with px := fun x y =>
      if x0 ≤ x ∧ x ≤ x1 ∧ y0 ≤ y ∧ y ≤ y1 then c else img.px x y }

/-- Python `s.replace(".png", "")` on the character list: scans left to
right and deletes every non-overlapping occurrence of `.png`. -/
def replPng : List Char → List Char
  | '.' :: 'p' :: 'n' :: 'g' :: rest => replPng rest
  | c :: rest => c :: replPng rest
  | [] => []

/-- Name derivation used by both scripts: `block_name.replace(".png", "")`. -/
def deriveName (s : String) : String := String.mk (replPng s.data)

/-- Python `s.endswith(suffix)`. -/
def pyEndsWith (s suffix : String) : Bool := suffix.data.isSuffixOf s.data

/-- Code-point lexicographic order on strings, as Boolean `≤`; this is the
order Python `sorted` uses on `str`. -/
def strLeb : List Char → List Char → Bool
  | [], _ => true
  | _ :: _, [] => false
  | c :: cs, d :: ds =>
    if c.toNat < d.toNat then true
    else if d.toNat < c.toNat then false
    else strLeb cs ds

/-- State of one directory entry: readable image, or present but unreadable
(`PIL.Image.open` raises on it). -/
inductive FileData where
  | corrupt
  | ok (img : Image)

/-- File-system state seen by the Full builder: whether the source directory
exists, and its listing (`os.listdir`; order is arbitrary). -/
structure FullFS where
  dirExists : Bool
  listing : List (String × FileData)

/-- File-system state seen by the Selective builder. -/
structure SelFS where
  dirExists : Bool
  files : List (String × FileData)

/-- Directory lookup by file name (`os.path.exists` plus `Image.open`). -/
def lookupFile (files : List (String × FileData)) (name : String) :
    Option FileData :=
  (files.find? (fun e => e.1 == name)).map Prod.snd

/-- Helper for the ceiling square root: counts `k` upwards until
`n ≤ k * k`, with enough fuel to always get there. -/
def ceilSqrtAux (n : Nat) : Nat → Nat → Nat
  | 0, k => k
  | fuel + 1, k => if n ≤ k * k then k else ceilSqrtAux n fuel (k + 1)

/-- Source line 59: `grid_width = math.ceil(math.sqrt(num_textures))`,
the float square root modelled exactly: the least `k` with `n ≤ k * k`. -/
def grid_width (n : Nat) : Nat := ceilSqrtAux n n 0

/-- Source line 60: `grid_height = math.ceil(num_textures / grid_width)`,
modelled as the exact ceiling division. -/
def grid_height (n : Nat) : Nat :=
  (n + grid_width n - 1) / grid_width n

/-- Source line 62: `atlas_width = tex_width * grid_width`. -/
def atlas_width (tw n : Nat) : Nat := tw * grid_width n

/-- Source line 63: `atlas_height = tex_height * grid_height`. -/
def atlas_height (th n : Nat) : Nat := th * grid_height n

/-- Source lines 81-82: the grid cell of linear index `i`,
`x = i % grid_width`, `y = i // grid_width`. -/
def cellXY (gw i : Nat) : Nat × Nat := (i % gw, i / gw)

/-- Source lines 83-84: pixel offset of linear index `i`,
`x_offset = x * tex_width`, `y_offset = y * tex_height`. -/
def cellOffset (gw tw th i : Nat) : Nat × Nat :=
  ((cellXY gw i).1 * tw, (cellXY gw i).2 * th)

/-- Source lines 80-87: paste each texture of the list into its grid cell,
`i` being the running linear index of the enumeration. -/
def pasteGrid (gw tw th : Nat) : Image → List Image → Nat → Image
  | canvas, [], _ => canvas
  | canvas, t :: rest, i =>
    pasteGrid gw tw th
      (canvas.paste t (cellOffset gw tw th i).1 (cellOffset gw tw th i).2)
      rest (i + 1)

/-- Source lines 108-124: overlay each cell of the reference image with a
semi-opaque label box and the decimal index text; `drawText` is the external
text renderer (font loading and glyph rasterisation). -/
def labelGrid (drawText : Image → Nat → Nat → String → Image)
    (gw tw th : Nat) : Image → List String → Nat → Image
  | img, [], _ => img
  | img, _ :: rest, i =>
    let o := cellOffset gw tw th i
    let img1 := fillRect img o.1 o.2 (o.1 + tw / 2) (o.2 + 10) (0, 0, 0, 180)
    labelGrid drawText gw tw th (drawText img1 (o.1 + 2) o.2 (toString i))
      rest (i + 1)

/-- One step of `mapping[name] = i` on a Python dict kept as an ordered
association list: an existing key keeps its position and gets the new value,
a new key is appended. -/
def dictSet (d : List (String × Nat)) (k : String) (v : Nat) :
    List (String × Nat) :=
  if (d.map Prod.fst).contains k then
    d.map (fun e => if e.1 = k then (e.1, v) else e)
  else d ++ [(k, v)]

/-- The mapping-building loop: `for i, name in enumerate(names): mapping[name] = i`. -/
def insertNames (d : List (String × Nat)) : List String → Nat → List (String × Nat)
  | [], _ => d
  | name :: rest, i => insertNames (dictSet d name i) rest (i + 1)

/-- The emitted mapping table, in dict insertion order. -/
def buildMapping (names : List String) : List (String × Nat) :=
  insertNames [] names 0

/-- Source line 27: keep the `.png` files of the listing and sort them by
name ascending (Python `sorted` on strings: code-point lexicographic). -/
def sortedPngs (listing : List (String × FileData)) :
    List (String × FileData) :=
  List.insertionSort (fun a b => strLeb a.1.data b.1.data = true)
    (listing.filter (fun e => pyEndsWith e.1 ".png"))

/-- Source lines 32-46: try to load every listed file, skipping the
unreadable ones with a warning; each loaded texture is paired with its
derived name. -/
def loadFull (files : List (String × FileData)) : List (String × Image) :=
  files.filterMap (fun e =>
    match e.2 with
    | .ok img => some (deriveName e.1, img)
    | .corrupt => none)

/-- Results persisted by one successful Full-builder run: the atlas image,
the annotated reference image and the mapping JSON, together with the
computed layout values. -/
structure FullOut where
  n : Nat
  tex_width : Nat
  tex_height : Nat
  grid_w : Nat
  grid_h : Nat
  atlas : Image
  reference : Image
  mapping : List (String × Nat)

/-- Source lines 49-137 of `build_full_atlas.py`, from the zero-loaded check
onwards: layout computation, composition of atlas and reference, mapping. -/
def buildFull (drawText : Image → Nat → Nat → String → Image)
    (all_files : List (String × FileData)) : Option FullOut :=
  match loadFull all_files with
  | [] => none
  | first :: rest =>
    let loaded := first :: rest
    let textures := loaded.map Prod.snd
    let texture_names := loaded.map Prod.fst
    let num_textures := textures.length
    let tex_width := first.2.width
    let tex_height := first.2.height
    let gw := grid_width num_textures
    let gh := grid_height num_textures
    let aw := atlas_width tex_width num_textures
    let ah := atlas_height tex_height num_textures
    let atlas :=
      pasteGrid gw tex_width tex_height (Image.new aw ah (0, 0, 0, 0)) textures 0
    let ref0 :=
      pasteGrid gw tex_width tex_height (Image.new aw ah (0, 0, 0, 0)) textures 0
    let reference := labelGrid drawText gw tex_width tex_height ref0 texture_names 0
    some
      { n := num_textures, tex_width := tex_width, tex_height := tex_height
        grid_w := gw, grid_h := gh, atlas := atlas, reference := reference
        mapping := buildMapping texture_names }

/-- `build_full_atlas()`: `none` models the fatal early returns, in which no
output file is written. -/
def build_full_atlas (drawText : Image → Nat → Nat → String → Image)
    (fs : FullFS) : Option FullOut :=
  if fs.dirExists = true then buildFull drawText (sortedPngs fs.listing)
  else none

/-- The ordered list of required block textures of the Selective builder. -/
def REQUIRED_BLOCKS : List String :=
  ["stone.png", "dirt.png", "grass_block_top.png", "grass_block_side.png",
   "bedrock.png"]

/-- Source line 40: the placeholder for a missing required texture,
`Image.new("RGBA", (16, 16), (255, 0, 255, 255))`. -/
def placeholderImg : Image := Image.new 16 16 (255, 0, 255, 255)

/-- Source lines 34-47 for one required block: a missing file yields the
magenta placeholder, a present file is opened (`none` models the uncaught
exception `Image.open` raises on an unreadable file). -/
def loadRequired (files : List (String × FileData)) (name : String) :
    Option Image :=
  match lookupFile files name with
  | none => some placeholderImg
  | some .corrupt => none
  | some (.ok img) => some img

/-- The Selective loading loop over the required blocks; `none` when an
uncaught exception aborts the script. -/
def loadAllRequired (files : List (String × FileData)) :
    List String → Option (List Image)
  | [] => some []
  | b :: rest =>
    match loadRequired files b with
    | none => none
    | some img =>
      match loadAllRequired files rest with
      | none => none
      | some l => some (img :: l)

/-- Source lines 70-74: paste the textures left to right at `x = i * tex_width`. -/
def pasteRow (tw : Nat) : Image → List Image → Nat → Image
  | canvas, [], _ => canvas
  | canvas, t :: rest, i => pasteRow tw (canvas.paste t (i * tw) 0) rest (i + 1)

/-- Results persisted by one successful Selective-builder run. -/
structure SelOut where
  tex_width : Nat
  tex_height : Nat
  atlas : Image
  mapping : List (String × Nat)

/-- Outcome of a Selective run: fatal directory error, uncaught load
exception, the (unreachable) zero-textures fatal error, or completion. Only
`done` writes any output file. -/
inductive SelResult where
  | noDir
  | crash
  | noTextures
  | done (out : SelOut)

/-- Source lines 49-82 of `build_atlas.py`, from the zero-loaded check
onwards: single-row layout, composition and mapping. -/
def buildSel (loadResult : Option (List Image)) : SelResult :=
  match loadResult with
  | none => .crash
  | some textures =>
    match textures with
    | [] => .noTextures
    | t0 :: _ =>
      let texture_names := REQUIRED_BLOCKS.map deriveName
      let tex_width := t0.width
      let tex_height := t0.height
      let aw := tex_width * textures.length
      let atlas := pasteRow tex_width (Image.new aw tex_height (0, 0, 0, 0)) textures 0
      .done
        { tex_width := tex_width, tex_height := tex_height, atlas := atlas
          mapping := buildMapping texture_names }

/-- `build_atlas()`. -/
def build_atlas (fs : SelFS) : SelResult :=
  if fs.dirExists = true then buildSel (loadAllRequired fs.files REQUIRED_BLOCKS)
  else .noDir

/-- Whether a Selective run completed and wrote its outputs. -/
def SelResult.isDone : SelResult → Bool
  | .done _ => true
  | _ => false

/-- The emitted mapping of a completed Selective run. -/
def SelResult.mappingOf : SelResult → Option (List (String × Nat))
  | .done o => some o.mapping
  | _ => none

/-- The atlas width of a completed Selective run. -/
def SelResult.atlasWidthOf : SelResult → Option Nat
  | .done o => some o.atlas.width
  | _ => none

/-- The atlas height of a completed Selective run. -/
def SelResult.atlasHeightOf : SelResult → Option Nat
  | .done o => some o.atlas.height
  | _ => none

/-! ### Layout arithmetic -/

lemma ceilSqrtAux_spec (n : Nat) :
    ∀ fuel k : Nat, (∀ j, j < k → j * j < n) → n ≤ (k + fuel) * (k + fuel) →
      n ≤ ceilSqrtAux n fuel k * ceilSqrtAux n fuel k ∧
        ∀ j, j < ceilSqrtAux n fuel k → j * j < n := by
  intro fuel
  induction fuel with
  | zero =>
    intro k hmin hbound
    simp only [ceilSqrtAux]
    exact ⟨by simpa using hbound, hmin⟩
  | succ fuel ih =>
    intro k hmin hbound
    by_cases h : n ≤ k * k
    · simp only [ceilSqrtAux, if_pos h]
      exact ⟨h, hmin⟩
    · have h' : k * k < n := Nat.lt_of_not_le h
      simp only [ceilSqrtAux, h, if_false]
      apply ih (k + 1)
      · intro j hj
        rcases Nat.lt_succ_iff_lt_or_eq.mp hj with hj' | rfl
        · exact hmin j hj'
        · exact h'
      · have hk : k + 1 + fuel = k + (fuel + 1) := by omega
        rw [hk]
        exact hbound

lemma le_grid_width_sq (n : Nat) : n ≤ grid_width n * grid_width n := by
  have hb : n ≤ (0 + n) * (0 + n) := by
    cases n with
    | zero => simp
    | succ m =>
      have : 0 < m + 1 := Nat.succ_pos m
      simpa using Nat.le_mul_of_pos_left (m + 1) this
  exact (ceilSqrtAux_spec n n 0 (by intro j hj; omega) hb).1

lemma grid_width_min (n j : Nat) (h : j < grid_width n) : j * j < n := by
  have hb : n ≤ (0 + n) * (0 + n) := by
    cases n with
    | zero => simp
    | succ m =>
      have : 0 < m + 1 := Nat.succ_pos m
      simpa using Nat.le_mul_of_pos_left (m + 1) this
  exact (ceilSqrtAux_spec n n 0 (by intro j hj; omega) hb).2 j h

lemma grid_width_pos (n : Nat) (hn : 1 ≤ n) : 0 < grid_width n := by
  rcases Nat.eq_zero_or_pos (grid_width n) with h | h
  · have := le_grid_width_sq n
    rw [h] at this
    omega
  · exact h

lemma grid_height_eq (n : Nat) (hn : 1 ≤ n) :
    grid_height n = (n - 1) / grid_width n + 1 := by
  have g := grid_width_pos n hn
  have h1 : n + grid_width n - 1 = (n - 1) + grid_width n := by omega
  rw [grid_height, h1, Nat.add_div_right _ g]

lemma le_mul_grid_height (n : Nat) (hn : 1 ≤ n) :
    n ≤ grid_width n * grid_height n := by
  have g := grid_width_pos n hn
  rw [grid_height_eq n hn]
  have h2 : n - 1 < grid_width n * ((n - 1) / grid_width n + 1) :=
    Nat.lt_mul_div_succ (n - 1) g
  omega

lemma div_lt_grid_height (n i : Nat) (hn : 1 ≤ n) (hi : i < n) :
    i / grid_width n < grid_height n := by
  have g := grid_width_pos n hn
  rw [grid_height_eq n hn]
  have h1 : i / grid_width n ≤ (n - 1) / grid_width n :=
    Nat.div_le_div_right (by omega)
  omega

/-- C1: in Full mode with `n` loaded textures and `cols = grid_width n`, the
cell of linear index `i < n` is `(i mod cols, i div cols)`, its pixel offset
is `(column * tileWidth, row * tileHeight)`, the column lies below `cols`,
the row lies below `rows = grid_height n`, and distinct indices occupy
distinct cells. -/
theorem c1_cell_placement (n tw th i j : Nat) (hn : 1 ≤ n) (hi : i < n)
    (hj : j < n) :
    cellXY (grid_width n) i = (i % grid_width n, i / grid_width n) ∧
    cellOffset (grid_width n) tw th i =
      ((i % grid_width n) * tw, (i / grid_width n) * th) ∧
    (cellXY (grid_width n) i).1 < grid_width n ∧
    (cellXY (grid_width n) i).2 < grid_height n ∧
    (i ≠ j → cellXY (grid_width n) i ≠ cellXY (grid_width n) j) := by
  refine ⟨rfl, rfl, ?_, ?_, ?_⟩
  · exact Nat.mod_lt i (grid_width_pos n hn)
  · exact div_lt_grid_height n i hn hi
  · intro hne heq
    apply hne
    have h1 := Nat.mod_add_div i (grid_width n)
    have h2 := Nat.mod_add_div j (grid_width n)
    simp only [cellXY, Prod.mk.injEq] at heq
    obtain ⟨hm, hd⟩ := heq
    rw [hm, hd] at h1
    omega

/-- Witness for C1 at `n = 10`, `i = 3`, `j = 7`. -/
theorem c1_cell_placement_witness :
    cellXY (grid_width 10) 3 = (3 % grid_width 10, 3 / grid_width 10) ∧
    cellOffset (grid_width 10) 16 16 3 =
      ((3 % grid_width 10) * 16, (3 / grid_width 10) * 16) ∧
    (cellXY (grid_width 10) 3).1 < grid_width 10 ∧
    (cellXY (grid_width 10) 3).2 < grid_height 10 ∧
    ((3 : Nat) ≠ 7 → cellXY (grid_width 10) 3 ≠ cellXY (grid_width 10) 7) :=
  c1_cell_placement 10 16 16 3 7 (by decide) (by decide) (by decide)

/-- C2: for every `n ≥ 1` the Full-mode layout has `cols = grid_width n`
equal to the ceiling square root of `n` (characterised by `n ≤ cols²` and
`(cols - 1)² < n`), `rows = grid_height n` with `cols * rows ≥ n`, the
canvas size is `(cols * tileWidth, rows * tileHeight)`, and for `n = 10`
the grid is `4 × 3`. -/
theorem c2_layout (n tw th : Nat) (hn : 1 ≤ n) :
    n ≤ grid_width n * grid_width n ∧
    (grid_width n - 1) * (grid_width n - 1) < n ∧
    n ≤ grid_width n * grid_height n ∧
    (atlas_width tw n, atlas_height th n) =
      (grid_width n * tw, grid_height n * th) ∧
    grid_width 10 = 4 ∧ grid_height 10 = 3 := by
  refine ⟨le_grid_width_sq n, ?_, le_mul_grid_height n hn, ?_, by decide, by decide⟩
  · exact grid_width_min n _ (by have := grid_width_pos n hn; omega)
  · simp [atlas_width, atlas_height, Nat.mul_comm]

/-- Witness for C2 at `n = 10`, tile size 16. -/
theorem c2_layout_witness :
    10 ≤ grid_width 10 * grid_width 10 ∧
    (grid_width 10 - 1) * (grid_width 10 - 1) < 10 ∧
    10 ≤ grid_width 10 * grid_height 10 ∧
    (atlas_width 16 10, atlas_height 16 10) =
      (grid_width 10 * 16, grid_height 10 * 16) ∧
    grid_width 10 = 4 ∧ grid_height 10 = 3 :=
  c2_layout 10 16 16 (by decide)

/-! ### Selective loading -/

lemma pasteRow_width (tw : Nat) (canvas : Image) (texs : List Image) (i : Nat) :
    (pasteRow tw canvas texs i).width = canvas.width := by
  induction texs generalizing canvas i with
  | nil => rfl
  | cons t rest ih => exact ih _ (i + 1)

lemma pasteRow_height (tw : Nat) (canvas : Image) (texs : List Image) (i : Nat) :
    (pasteRow tw canvas texs i).height = canvas.height := by
  induction texs generalizing canvas i with
  | nil => rfl
  | cons t rest ih => exact ih _ (i + 1)

lemma build_atlas_of_dirExists (fs : SelFS) (hdir : fs.dirExists = true) :
    build_atlas fs = buildSel (loadAllRequired fs.files REQUIRED_BLOCKS) := by
  unfold build_atlas
  rw [hdir]
  rfl

lemma build_full_atlas_of_dirExists (drawText : Image → Nat → Nat → String → Image)
    (fs : FullFS) (hdir : fs.dirExists = true) :
    build_full_atlas drawText fs = buildFull drawText (sortedPngs fs.listing) := by
  unfold build_full_atlas
  rw [hdir]
  rfl

lemma loadAllRequired_length (files : List (String × FileData)) :
    ∀ (blocks : List String) (texs : List Image),
      loadAllRequired files blocks = some texs → texs.length = blocks.length := by
  intro blocks
  induction blocks with
  | nil =>
    intro texs h
    simp only [loadAllRequired, Option.some.injEq] at h
    simp [← h]
  | cons b rest ih =>
    intro texs h
    simp only [loadAllRequired] at h
    cases h1 : loadRequired files b with
    | none => rw [h1] at h; exact absurd h (by simp)
    | some img =>
      rw [h1] at h
      cases h2 : loadAllRequired files rest with
      | none => rw [h2] at h; exact absurd h (by simp)
      | some l =>
        rw [h2] at h
        simp only [Option.some.injEq] at h
        subst h
        simp [ih l h2]

lemma loadRequired_isSome (files : List (String × FileData)) (b : String)
    (hnc : lookupFile files b ≠ some FileData.corrupt) :
    (loadRequired files b).isSome = true := by
  unfold loadRequired
  cases h : lookupFile files b with
  | none => rfl
  | some d =>
    cases d with
    | corrupt => exact absurd h hnc
    | ok img => rfl

lemma loadAllRequired_isSome (files : List (String × FileData)) :
    ∀ blocks : List String,
      (∀ b ∈ blocks, lookupFile files b ≠ some FileData.corrupt) →
      (loadAllRequired files blocks).isSome = true := by
  intro blocks
  induction blocks with
  | nil => intro _; rfl
  | cons b rest ih =>
    intro hnc
    have h1 := loadRequired_isSome files b (hnc b (List.mem_cons_self b rest))
    have h2 := ih (fun x hx => hnc x (List.mem_cons_of_mem b hx))
    simp only [loadAllRequired]
    cases hb : loadRequired files b with
    | none => rw [hb] at h1; exact absurd h1 (by simp)
    | some img =>
      cases hr : loadAllRequired files rest with
      | none => rw [hr] at h2; exact absurd h2 (by simp)
      | some l => rfl

lemma loadAllRequired_get_placeholder (files : List (String × FileData)) :
    ∀ (blocks : List String) (texs : List Image) (i : Nat)
      (h : loadAllRequired files blocks = some texs) (hi : i < blocks.length),
      lookupFile files blocks[i] = none → texs[i]? = some placeholderImg := by
  intro blocks
  induction blocks with
  | nil => intro texs i h hi; simp at hi
  | cons b rest ih =>
    intro texs i h hi habs
    simp only [loadAllRequired] at h
    cases h1 : loadRequired files b with
    | none => rw [h1] at h; exact absurd h (by simp)
    | some img =>
      rw [h1] at h
      cases h2 : loadAllRequired files rest with
      | none => rw [h2] at h; exact absurd h (by simp)
      | some l =>
        rw [h2] at h
        simp only [Option.some.injEq] at h
        subst h
        cases i with
        | zero =>
          simp only [List.getElem_cons_zero] at habs
          unfold loadRequired at h1
          rw [habs] at h1
          simp only [Option.some.injEq] at h1
          simp [← h1]
        | succ i' =>
          simp only [List.getElem_cons_succ] at habs
          have := ih l i' h2 (by simpa using hi) habs
          simpa using this

/-- C3 (amended): in Selective mode a missing required texture is replaced
by the fixed 16 by 16 fully-opaque magenta placeholder
`Image.new 16 16 (255, 0, 255, 255)` — its size does not depend on any
loaded texture — and, as long as no present required file is unreadable,
loading still succeeds for the whole list. -/
theorem c3_placeholder (files : List (String × FileData)) (blocks : List String)
    (i : Nat)
    (hnc : ∀ b ∈ blocks, lookupFile files b ≠ some FileData.corrupt)
    (hi : i < blocks.length)
    (habs : lookupFile files blocks[i] = none) :
    (loadAllRequired files blocks).isSome = true ∧
    (loadAllRequired files blocks).bind (fun texs => texs[i]?) =
      some (Image.new 16 16 (255, 0, 255, 255)) := by
  have hs := loadAllRequired_isSome files blocks hnc
  refine ⟨hs, ?_⟩
  cases h : loadAllRequired files blocks with
  | none => rw [h] at hs; exact absurd hs (by simp)
  | some texs =>
    exact loadAllRequired_get_placeholder files blocks texs i h hi habs

/-- Witness for C3 (amended): empty directory, first required block. -/
theorem c3_placeholder_witness :
    (loadAllRequired ([] : List (String × FileData)) REQUIRED_BLOCKS).isSome = true ∧
    (loadAllRequired ([] : List (String × FileData)) REQUIRED_BLOCKS).bind
      (fun texs => texs[0]?) = some (Image.new 16 16 (255, 0, 255, 255)) :=
  c3_placeholder [] REQUIRED_BLOCKS 0
    (by intro b hb; simp [lookupFile]) (by decide) rfl

/-- Input refuting C3 as stated: the only present texture, `stone.png`, is
32 by 32, so the first successfully loaded texture is 32 by 32, while every
substituted placeholder is 16 by 16. -/
def c3fs : SelFS :=
  ⟨true, [("stone.png", FileData.ok (Image.new 32 32 (7, 7, 7, 255)))]⟩

/-- C3 counterexample: with `c3fs` the loaded list has widths and heights
`[32, 16, 16, 16, 16]`: the placeholders do not take the dimensions of the
first successfully loaded texture. -/
theorem c3_counterexample :
    (loadAllRequired c3fs.files REQUIRED_BLOCKS).map (fun l => l.map Image.width) =
      some [32, 16, 16, 16, 16] ∧
    (loadAllRequired c3fs.files REQUIRED_BLOCKS).map (fun l => l.map Image.height) =
      some [32, 16, 16, 16, 16] ∧
    (16 : Nat) ≠ 32 :=
  ⟨rfl, rfl, by decide⟩

/-! ### Selective run outcomes -/

/-- C10 (amended): the `No textures loaded` fatal branch of the Selective
builder is unreachable in every run; and whenever the source directory
exists and no present required texture is unreadable, the run completes and
writes its outputs. (As stated the claim fails: a present-but-unreadable
required file aborts the run with an uncaught exception even though the
directory exists.) -/
theorem c10_no_textures_unreachable (fs fs2 : SelFS)
    (hdir : fs.dirExists = true)
    (hnc : ∀ b ∈ REQUIRED_BLOCKS, lookupFile fs.files b ≠ some FileData.corrupt) :
    build_atlas fs2 ≠ SelResult.noTextures ∧ (build_atlas fs).isDone = true := by
  constructor
  · unfold build_atlas
    cases hd : fs2.dirExists with
    | false => simp
    | true =>
      simp only [if_pos rfl]
      unfold buildSel
      cases hl : loadAllRequired fs2.files REQUIRED_BLOCKS with
      | none => simp
      | some texs =>
        have hlen : texs.length = REQUIRED_BLOCKS.length :=
          loadAllRequired_length fs2.files REQUIRED_BLOCKS texs hl
        cases texs with
        | nil => simp [REQUIRED_BLOCKS] at hlen
        | cons t rest => simp
  · unfold build_atlas
    rw [hdir]
    simp only [if_pos rfl]
    unfold buildSel
    have hs := loadAllRequired_isSome fs.files REQUIRED_BLOCKS hnc
    cases hl : loadAllRequired fs.files REQUIRED_BLOCKS with
    | none => rw [hl] at hs; exact absurd hs (by simp)
    | some texs =>
      have hlen : texs.length = REQUIRED_BLOCKS.length :=
        loadAllRequired_length fs.files REQUIRED_BLOCKS texs hl
      cases texs with
      | nil => simp [REQUIRED_BLOCKS] at hlen
      | cons t rest => rfl

/-- Witness for C10 (amended): directory exists and holds no files at all. -/
theorem c10_no_textures_unreachable_witness :
    build_atlas ⟨true, []⟩ ≠ SelResult.noTextures ∧
    (build_atlas ⟨true, []⟩).isDone = true :=
  c10_no_textures_unreachable ⟨true, []⟩ ⟨true, []⟩ rfl
    (by intro b hb; simp [lookupFile])

/-- Input refuting C10 as stated: the directory exists but `stone.png` is
present and unreadable. -/
def c10fs : SelFS := ⟨true, [("stone.png", FileData.corrupt)]⟩

/-- C10 counterexample: on `c10fs` the directory exists, yet the Selective
run aborts with the uncaught load exception and writes no outputs. -/
theorem c10_counterexample :
    c10fs.dirExists = true ∧ build_atlas c10fs = SelResult.crash ∧
    (build_atlas c10fs).isDone = false :=
  ⟨rfl, rfl, rfl⟩

/-- C4 (amended): a builder run writes its outputs exactly when it avoids
its fatal cases. Full mode: outputs are written iff the directory exists and
at least one texture loads. Selective mode: outputs are written iff the
directory exists and the required-block loading loop does not raise, i.e. no
required file is present but unreadable; missing files never prevent
completion (placeholders are substituted). -/
theorem c4_exit_behavior (drawText : Image → Nat → Nat → String → Image)
    (ffs : FullFS) (sfs : SelFS) :
    ((build_full_atlas drawText ffs).isSome = true ↔
      ffs.dirExists = true ∧ loadFull (sortedPngs ffs.listing) ≠ []) ∧
    ((build_atlas sfs).isDone = true ↔
      sfs.dirExists = true ∧
        (loadAllRequired sfs.files REQUIRED_BLOCKS).isSome = true) := by
  constructor
  · unfold build_full_atlas
    cases hd : ffs.dirExists with
    | false => simp
    | true =>
      simp only [if_pos rfl]
      unfold buildFull
      cases hl : loadFull (sortedPngs ffs.listing) with
      | nil => simp
      | cons first rest => simp
  · unfold build_atlas
    cases hd : sfs.dirExists with
    | false => simp [SelResult.isDone]
    | true =>
      simp only [if_pos rfl]
      unfold buildSel
      cases hl : loadAllRequired sfs.files REQUIRED_BLOCKS with
      | none => simp [SelResult.isDone]
      | some texs =>
        have hlen : texs.length = REQUIRED_BLOCKS.length :=
          loadAllRequired_length sfs.files REQUIRED_BLOCKS texs hl
        cases texs with
        | nil => simp [REQUIRED_BLOCKS] at hlen
        | cons t rest => simp [SelResult.isDone]

/-- Input refuting C4 as stated: the directory exists, the first four
required textures are readable, but `bedrock.png` is present and
unreadable. -/
def c4fs : SelFS :=
  ⟨true, [("stone.png", FileData.ok (Image.new 16 16 (1, 1, 1, 255))),
          ("dirt.png", FileData.ok (Image.new 16 16 (2, 2, 2, 255))),
          ("grass_block_top.png", FileData.ok (Image.new 16 16 (3, 3, 3, 255))),
          ("grass_block_side.png", FileData.ok (Image.new 16 16 (4, 4, 4, 255))),
          ("bedrock.png", FileData.corrupt)]⟩

/-- C4 counterexample: on `c4fs` the directory exists and four textures load
successfully, yet the Selective run aborts before writing any output —
contradicting the claim that every non-fatal run completes even with
corrupt inputs. -/
theorem c4_counterexample :
    c4fs.dirExists = true ∧
    (loadAllRequired c4fs.files (REQUIRED_BLOCKS.take 4)).isSome = true ∧
    build_atlas c4fs = SelResult.crash ∧
    (build_atlas c4fs).isDone = false :=
  ⟨rfl, rfl, rfl, rfl⟩

/-! ### Selective mode with all required textures present -/

/-- C5: when all five required textures are present and readable, the
Selective run completes with a single-row canvas of width `5 * tileWidth`
and height `tileHeight` (the tile size being that of the first texture),
and the emitted mapping is exactly stone 0, dirt 1, grass_block_top 2,
grass_block_side 3, bedrock 4. -/
theorem c5_selective_complete (s d g1 g2 b : Image) (fs : SelFS)
    (hdir : fs.dirExists = true)
    (hfiles : fs.files =
      [("stone.png", FileData.ok s), ("dirt.png", FileData.ok d),
       ("grass_block_top.png", FileData.ok g1),
       ("grass_block_side.png", FileData.ok g2),
       ("bedrock.png", FileData.ok b)]) :
    (build_atlas fs).atlasWidthOf = some (5 * s.width) ∧
    (build_atlas fs).atlasHeightOf = some s.height ∧
    (build_atlas fs).mappingOf = some
      [("stone", 0), ("dirt", 1), ("grass_block_top", 2),
       ("grass_block_side", 3), ("bedrock", 4)] := by
  have hload : loadAllRequired fs.files REQUIRED_BLOCKS = some [s, d, g1, g2, b] := by
    rw [hfiles]; rfl
  rw [build_atlas_of_dirExists fs hdir, hload]
  refine ⟨?_, ?_, rfl⟩
  · show some ((pasteRow s.width
        (Image.new (s.width * 5) s.height (0, 0, 0, 0)) [s, d, g1, g2, b] 0).width) =
      some (5 * s.width)
    rw [pasteRow_width]
    simp [Image.new, Nat.mul_comm]
  · show some ((pasteRow s.width
        (Image.new (s.width * 5) s.height (0, 0, 0, 0)) [s, d, g1, g2, b] 0).height) =
      some s.height
    rw [pasteRow_height]
    rfl

/-- Witness for C5: a concrete directory with all five required textures. -/
theorem c5_selective_complete_witness :
    (build_atlas ⟨true,
      [("stone.png", FileData.ok (Image.new 16 16 (1, 1, 1, 255))),
       ("dirt.png", FileData.ok (Image.new 16 16 (2, 2, 2, 255))),
       ("grass_block_top.png", FileData.ok (Image.new 16 16 (3, 3, 3, 255))),
       ("grass_block_side.png", FileData.ok (Image.new 16 16 (4, 4, 4, 255))),
       ("bedrock.png", FileData.ok (Image.new 16 16 (5, 5, 5, 255)))]⟩).atlasWidthOf =
      some (5 * (Image.new 16 16 (1, 1, 1, 255)).width) ∧
    (build_atlas ⟨true,
      [("stone.png", FileData.ok (Image.new 16 16 (1, 1, 1, 255))),
       ("dirt.png", FileData.ok (Image.new 16 16 (2, 2, 2, 255))),
       ("grass_block_top.png", FileData.ok (Image.new 16 16 (3, 3, 3, 255))),
       ("grass_block_side.png", FileData.ok (Image.new 16 16 (4, 4, 4, 255))),
       ("bedrock.png", FileData.ok (Image.new 16 16 (5, 5, 5, 255)))]⟩).atlasHeightOf =
      some (Image.new 16 16 (1, 1, 1, 255)).height ∧
    (build_atlas ⟨true,
      [("stone.png", FileData.ok (Image.new 16 16 (1, 1, 1, 255))),
       ("dirt.png", FileData.ok (Image.new 16 16 (2, 2, 2, 255))),
       ("grass_block_top.png", FileData.ok (Image.new 16 16 (3, 3, 3, 255))),
       ("grass_block_side.png", FileData.ok (Image.new 16 16 (4, 4, 4, 255))),
       ("bedrock.png", FileData.ok (Image.new 16 16 (5, 5, 5, 255)))]⟩).mappingOf =
      some [("stone", 0), ("dirt", 1), ("grass_block_top", 2),
            ("grass_block_side", 3), ("bedrock", 4)] :=
  c5_selective_complete (Image.new 16 16 (1, 1, 1, 255))
    (Image.new 16 16 (2, 2, 2, 255)) (Image.new 16 16 (3, 3, 3, 255))
    (Image.new 16 16 (4, 4, 4, 255)) (Image.new 16 16 (5, 5, 5, 255))
    _ rfl rfl

/-! ### Unused trailing cells stay transparent -/

lemma pasteGrid_px_of_uncovered (gw tw th px py : Nat) :
    ∀ (texs : List Image) (canvas : Image) (start : Nat),
      (∀ t ∈ texs, t.width = tw ∧ t.height = th) →
      (∀ k, start ≤ k → k < start + texs.length →
        ¬ ((cellOffset gw tw th k).1 ≤ px ∧
           px < (cellOffset gw tw th k).1 + tw ∧
           (cellOffset gw tw th k).2 ≤ py ∧
           py < (cellOffset gw tw th k).2 + th)) →
      (pasteGrid gw tw th canvas texs start).px px py = canvas.px px py := by
  intro texs
  induction texs with
  | nil => intro canvas start _ _; rfl
  | cons t rest ih =>
    intro canvas start hsz hnc
    have hstep :
        (canvas.paste t (cellOffset gw tw th start).1
          (cellOffset gw tw th start).2).px px py = canvas.px px py := by
      unfold Image.paste
      simp only
      rw [if_neg]
      intro hcov
      have hw := (hsz t (List.mem_cons_self t rest)).1
      have hh := (hsz t (List.mem_cons_self t rest)).2
      rw [hw, hh] at hcov
      exact hnc start (Nat.le_refl start) (by simp) hcov
    calc (pasteGrid gw tw th canvas (t :: rest) start).px px py
        = (pasteGrid gw tw th
            (canvas.paste t (cellOffset gw tw th start).1
              (cellOffset gw tw th start).2) rest (start + 1)).px px py := rfl
      _ = (canvas.paste t (cellOffset gw tw th start).1
            (cellOffset gw tw th start).2).px px py := by
          apply ih
          · intro t' ht'
            exact hsz t' (List.mem_cons_of_mem t ht')
          · intro k hk1 hk2
            exact hnc k (by omega) (by simp; omega)
      _ = canvas.px px py := hstep

lemma div_eq_of_between (a q r : Nat) (hq : 0 < q) (hlo : r * q ≤ a)
    (hhi : a < (r + 1) * q) : a / q = r := by
  apply Nat.le_antisymm
  · have := (Nat.div_lt_iff_lt_mul hq).mpr hhi
    omega
  · exact (Nat.le_div_iff_mul_le hq).mpr hlo

lemma cell_of_covered (gw tw th px py k : Nat) (htw : 0 < tw) (hth : 0 < th)
    (hcov : (cellOffset gw tw th k).1 ≤ px ∧
      px < (cellOffset gw tw th k).1 + tw ∧
      (cellOffset gw tw th k).2 ≤ py ∧
      py < (cellOffset gw tw th k).2 + th) :
    px / tw + (py / th) * gw = k := by
  obtain ⟨h1, h2, h3, h4⟩ := hcov
  simp only [cellOffset, cellXY] at h1 h2 h3 h4
  have hx : px / tw = k % gw :=
    div_eq_of_between px tw (k % gw) htw h1 (by rw [Nat.succ_mul]; exact h2)
  have hy : py / th = k / gw :=
    div_eq_of_between py th (k / gw) hth h3 (by rw [Nat.succ_mul]; exact h4)
  have hk := Nat.mod_add_div k gw
  rw [hx, hy, Nat.mul_comm (k / gw) gw]
  exact hk

/-- C7: in a Full-mode run whose loaded textures all have the tile size
`tw` by `th`, every pixel of the atlas canvas that lies in a grid cell with
linear index at least `n` (the unused trailing cells) is still fully
transparent `(0, 0, 0, 0)`: the canvas starts transparent and no paste of a
texture with index below `n` reaches those cells. -/
theorem c7_unused_cells_transparent
    (drawText : Image → Nat → Nat → String → Image) (fs : FullFS)
    (first : String × Image) (rest : List (String × Image)) (tw th px py : Nat)
    (hdir : fs.dirExists = true)
    (hload : loadFull (sortedPngs fs.listing) = first :: rest)
    (hsz : ∀ e ∈ first :: rest, (e : String × Image).2.width = tw ∧ e.2.height = th)
    (htw : 0 < tw) (hth : 0 < th)
    (hcell : (first :: rest).length ≤
      px / tw + (py / th) * grid_width (first :: rest).length) :
    (build_full_atlas drawText fs).map (fun o => o.atlas.px px py) =
      some (0, 0, 0, 0) := by
  rw [build_full_atlas_of_dirExists drawText fs hdir]
  unfold buildFull
  rw [hload]
  have hw : first.2.width = tw := (hsz first (List.mem_cons_self first rest)).1
  have hh : first.2.height = th := (hsz first (List.mem_cons_self first rest)).2
  refine congrArg some ((pasteGrid_px_of_uncovered
      (grid_width ((first :: rest).map Prod.snd).length)
      first.2.width first.2.height px py
      ((first :: rest).map Prod.snd)
      (Image.new (atlas_width first.2.width ((first :: rest).map Prod.snd).length)
        (atlas_height first.2.height ((first :: rest).map Prod.snd).length)
        (0, 0, 0, 0))
      0 ?_ ?_).trans rfl)
  · intro t ht
    obtain ⟨e, he, rfl⟩ := List.mem_map.mp ht
    rw [hw, hh]
    exact hsz e he
  · intro k hk1 hk2 hcov
    rw [hw, hh] at hcov
    have hkeq := cell_of_covered (grid_width ((first :: rest).map Prod.snd).length)
      tw th px py k htw hth hcov
    rw [List.length_map] at hk2 hkeq
    omega

/-- Witness for C7: three 1 by 1 textures give a 2 by 2 grid whose fourth
cell (pixel (1, 1)) stays transparent. -/
theorem c7_unused_cells_transparent_witness :
    (build_full_atlas (fun img _ _ _ => img)
      ⟨true, [("a.png", FileData.ok (Image.new 1 1 (9, 9, 9, 255))),
              ("b.png", FileData.ok (Image.new 1 1 (8, 8, 8, 255))),
              ("c.png", FileData.ok (Image.new 1 1 (7, 7, 7, 255)))]⟩).map
      (fun o => o.atlas.px 1 1) = some (0, 0, 0, 0) :=
  c7_unused_cells_transparent (fun img _ _ _ => img)
    ⟨true, [("a.png", FileData.ok (Image.new 1 1 (9, 9, 9, 255))),
            ("b.png", FileData.ok (Image.new 1 1 (8, 8, 8, 255))),
            ("c.png", FileData.ok (Image.new 1 1 (7, 7, 7, 255)))]⟩
    ("a", Image.new 1 1 (9, 9, 9, 255))
    [("b", Image.new 1 1 (8, 8, 8, 255)), ("c", Image.new 1 1 (7, 7, 7, 255))]
    1 1 1 1 rfl rfl (by decide) (by decide) (by decide) (by decide)

/-! ### The code-point order is total, transitive and antisymmetric -/

lemma strLeb_total : ∀ a b : List Char, strLeb a b = true ∨ strLeb b a = true := by
  intro a
  induction a with
  | nil => intro b; left; rfl
  | cons c cs ih =>
    intro b
    cases b with
    | nil => right; rfl
    | cons d ds =>
      by_cases h1 : c.toNat < d.toNat
      · left; simp [strLeb, h1]
      · by_cases h2 : d.toNat < c.toNat
        · right; simp [strLeb, h2]
        · rcases ih ds with h | h
          · left; simp [strLeb, h1, h2, h]
          · right; simp [strLeb, h1, h2, h]

lemma strLeb_trans :
    ∀ a b c : List Char, strLeb a b = true → strLeb b c = true →
      strLeb a c = true := by
  intro a
  induction a with
  | nil => intro b c _ _; rfl
  | cons x xs ih =>
    intro b c hab hbc
    cases b with
    | nil => simp [strLeb] at hab
    | cons y ys =>
      cases c with
      | nil => simp [strLeb] at hbc
      | cons z zs =>
        simp only [strLeb] at hab hbc ⊢
        by_cases hxy : x.toNat < y.toNat
        · by_cases hyz : y.toNat < z.toNat
          · have hxz : x.toNat < z.toNat := Nat.lt_trans hxy hyz
            simp [hxz]
          · by_cases hzy : z.toNat < y.toNat
            · rw [if_neg hyz, if_pos hzy] at hbc
              exact absurd hbc (by simp)
            · have hxz : x.toNat < z.toNat := by omega
              simp [hxz]
        · by_cases hyx : y.toNat < x.toNat
          · rw [if_neg hxy, if_pos hyx] at hab
            exact absurd hab (by simp)
          · rw [if_neg hxy, if_neg hyx] at hab
            by_cases hyz : y.toNat < z.toNat
            · have hxz : x.toNat < z.toNat := by omega
              simp [hxz]
            · by_cases hzy : z.toNat < y.toNat
              · rw [if_neg hyz, if_pos hzy] at hbc
                exact absurd hbc (by simp)
              · rw [if_neg hyz, if_neg hzy] at hbc
                have hxz : ¬ x.toNat < z.toNat := by omega
                have hzx : ¬ z.toNat < x.toNat := by omega
                rw [if_neg hxz, if_neg hzx]
                exact ih ys zs hab hbc

lemma Char_eq_of_toNat_eq (a b : Char) (h : a.toNat = b.toNat) : a = b :=
  Char.ext (UInt32.toNat.inj h)

lemma String_eq_of_data_eq (s t : String) (h : s.data = t.data) : s = t :=
  congrArg String.mk h

lemma strLeb_antisymm :
    ∀ a b : List Char, strLeb a b = true → strLeb b a = true → a = b := by
  intro a
  induction a with
  | nil =>
    intro b _ hba
    cases b with
    | nil => rfl
    | cons d ds => simp [strLeb] at hba
  | cons c cs ih =>
    intro b hab hba
    cases b with
    | nil => simp [strLeb] at hab
    | cons d ds =>
      simp only [strLeb] at hab hba
      by_cases h1 : c.toNat < d.toNat
      · rw [if_neg (by omega : ¬ d.toNat < c.toNat), if_pos h1] at hba
        exact absurd hba (by simp)
      · by_cases h2 : d.toNat < c.toNat
        · rw [if_neg (by omega : ¬ c.toNat < d.toNat), if_pos h2] at hab
          exact absurd hab (by simp)
        · have hcd : c = d := Char_eq_of_toNat_eq c d (by omega)
          rw [if_neg h1, if_neg h2] at hab
          rw [if_neg h2, if_neg h1] at hba
          rw [hcd, ih ds hab hba]

/-! ### The mapping dict on duplicate-free names -/

lemma insertNames_of_disjoint :
    ∀ (names : List String) (d : List (String × Nat)) (i : Nat),
      (∀ e ∈ d, e.1 ∉ names) → names.Nodup →
      insertNames d names i =
        d ++ (List.enumFrom i names).map (fun p => (p.2, p.1)) := by
  intro names
  induction names with
  | nil => intro d i _ _; simp [insertNames]
  | cons name rest ih =>
    intro d i hd hnd
    have hmem : name ∉ d.map Prod.fst := by
      intro hm
      obtain ⟨e, he, heq⟩ := List.mem_map.mp hm
      exact hd e he (by rw [heq]; exact List.mem_cons_self name rest)
    have hc : ((d.map Prod.fst).contains name) = false := by simpa using hmem
    have hdict : dictSet d name i = d ++ [(name, i)] := by
      unfold dictSet
      rw [if_neg (by rw [hc]; simp : ¬ ((d.map Prod.fst).contains name = true))]
    simp only [insertNames, hdict]
    rw [ih (d ++ [(name, i)]) (i + 1) ?_ (List.Nodup.of_cons hnd)]
    · rw [List.enumFrom_cons]
      simp
    · intro e he
      rcases List.mem_append.mp he with he' | he'
      · intro hm
        exact hd e he' (List.mem_cons_of_mem name hm)
      · have heq : e = (name, i) := by simpa using he'
        subst heq
        exact (List.nodup_cons.mp hnd).1

lemma buildMapping_of_nodup (names : List String) (hnd : names.Nodup) :
    buildMapping names = (List.enumFrom 0 names).map (fun p => (p.2, p.1)) := by
  have h := insertNames_of_disjoint names [] 0 (by simp) hnd
  simpa [buildMapping] using h

/-- C6 (amended): in Full mode the source list is exactly the `.png` files
of the listing sorted by name ascending (a sorted permutation of the
filtered listing); and provided the derived names of the loaded textures
are pairwise distinct, the emitted mapping keys are exactly those names in
load order and the k-th loaded name maps to index k, the values forming the
range `[0, n)`. (As stated the claim fails when two distinct file names
derive the same name, see the counterexample.) -/
theorem c6_source_order_and_mapping
    (drawText : Image → Nat → Nat → String → Image) (fs : FullFS)
    (first : String × Image) (rest : List (String × Image))
    (hdir : fs.dirExists = true)
    (hload : loadFull (sortedPngs fs.listing) = first :: rest)
    (hnd : ((first :: rest).map Prod.fst).Nodup) :
    (sortedPngs fs.listing).Perm
      (fs.listing.filter (fun e => pyEndsWith e.1 ".png")) ∧
    List.Sorted (fun a b => strLeb a.1.data b.1.data = true)
      (sortedPngs fs.listing) ∧
    (build_full_atlas drawText fs).map FullOut.mapping =
      some ((List.enumFrom 0 ((first :: rest).map Prod.fst)).map
        (fun p => (p.2, p.1))) ∧
    ((List.enumFrom 0 ((first :: rest).map Prod.fst)).map
      (fun p => (p.2, p.1))).map Prod.fst = (first :: rest).map Prod.fst ∧
    ((List.enumFrom 0 ((first :: rest).map Prod.fst)).map
      (fun p => (p.2, p.1))).map Prod.snd = List.range (first :: rest).length := by
  refine ⟨List.perm_insertionSort _ _, ?_, ?_, ?_, ?_⟩
  · haveI : IsTotal (String × FileData)
        (fun a b => strLeb a.1.data b.1.data = true) :=
      ⟨fun a b => strLeb_total a.1.data b.1.data⟩
    haveI : IsTrans (String × FileData)
        (fun a b => strLeb a.1.data b.1.data = true) :=
      ⟨fun a b c => strLeb_trans a.1.data b.1.data c.1.data⟩
    exact List.sorted_insertionSort _ _
  · rw [build_full_atlas_of_dirExists drawText fs hdir]
    unfold buildFull
    rw [hload]
    exact congrArg some (buildMapping_of_nodup ((first :: rest).map Prod.fst) hnd)
  · rw [List.map_map]
    exact List.enumFrom_map_snd 0 ((first :: rest).map Prod.fst)
  · rw [List.map_map, List.range_eq_range']
    have h := List.enumFrom_map_fst 0 ((first :: rest).map Prod.fst)
    rw [List.length_map] at h
    exact h

/-- Witness for C6 (amended): a directory listed out of order with two
distinct textures. -/
theorem c6_source_order_and_mapping_witness :
    (sortedPngs ([("b.png", FileData.ok (Image.new 1 1 (1, 1, 1, 255))),
        ("a.png", FileData.ok (Image.new 1 1 (2, 2, 2, 255)))])).Perm
      (([("b.png", FileData.ok (Image.new 1 1 (1, 1, 1, 255))),
        ("a.png", FileData.ok (Image.new 1 1 (2, 2, 2, 255)))]).filter
        (fun e => pyEndsWith e.1 ".png")) ∧
    List.Sorted (fun a b => strLeb a.1.data b.1.data = true)
      (sortedPngs ([("b.png", FileData.ok (Image.new 1 1 (1, 1, 1, 255))),
        ("a.png", FileData.ok (Image.new 1 1 (2, 2, 2, 255)))])) ∧
    (build_full_atlas (fun img _ _ _ => img)
      ⟨true, [("b.png", FileData.ok (Image.new 1 1 (1, 1, 1, 255))),
              ("a.png", FileData.ok (Image.new 1 1 (2, 2, 2, 255)))]⟩).map
        FullOut.mapping =
      some ((List.enumFrom 0 (((("a", Image.new 1 1 (2, 2, 2, 255)) ::
        [("b", Image.new 1 1 (1, 1, 1, 255))])).map Prod.fst)).map
          (fun p => (p.2, p.1))) ∧
    ((List.enumFrom 0 (((("a", Image.new 1 1 (2, 2, 2, 255)) ::
        [("b", Image.new 1 1 (1, 1, 1, 255))])).map Prod.fst)).map
          (fun p => (p.2, p.1))).map Prod.fst =
      ((("a", Image.new 1 1 (2, 2, 2, 255)) ::
        [("b", Image.new 1 1 (1, 1, 1, 255))])).map Prod.fst ∧
    ((List.enumFrom 0 (((("a", Image.new 1 1 (2, 2, 2, 255)) ::
        [("b", Image.new 1 1 (1, 1, 1, 255))])).map Prod.fst)).map
          (fun p => (p.2, p.1))).map Prod.snd =
      List.range ((("a", Image.new 1 1 (2, 2, 2, 255)) ::
        [("b", Image.new 1 1 (1, 1, 1, 255))])).length :=
  c6_source_order_and_mapping (fun img _ _ _ => img)
    ⟨true, [("b.png", FileData.ok (Image.new 1 1 (1, 1, 1, 255))),
            ("a.png", FileData.ok (Image.new 1 1 (2, 2, 2, 255)))]⟩
    ("a", Image.new 1 1 (2, 2, 2, 255))
    [("b", Image.new 1 1 (1, 1, 1, 255))]
    rfl rfl (by decide)

/-- Input refuting C6 as stated: `a.png` and `a.png.png` both derive the
name `a`. -/
def c6fs : FullFS :=
  ⟨true, [("a.png", FileData.ok (Image.new 16 16 (1, 2, 3, 255))),
          ("a.png.png", FileData.ok (Image.new 16 16 (4, 5, 6, 255)))]⟩

/-- C6 counterexample: on `c6fs` two textures load but the mapping is the
single entry `a maps to 1`, so its values `[1]` are not a permutation of
`[0, 2)` and the 0-th loaded name does not map to 0. -/
theorem c6_counterexample :
    (build_full_atlas (fun img _ _ _ => img) c6fs).map FullOut.mapping =
      some [("a", 1)] ∧
    (build_full_atlas (fun img _ _ _ => img) c6fs).map FullOut.n = some 2 ∧
    ¬ ([(("a" : String), (1 : Nat))].map Prod.snd).Perm (List.range 2) :=
  ⟨rfl, rfl, by decide⟩

/-- Input for C9: `dirt.png` and `dirt.png.png` collide after name
derivation. -/
def c9fs : FullFS :=
  ⟨true, [("dirt.png", FileData.ok (Image.new 16 16 (1, 1, 1, 255))),
          ("dirt.png.png", FileData.ok (Image.new 16 16 (2, 2, 2, 255)))]⟩

/-- C9: name derivation deletes every occurrence of `.png`, so the distinct
files `dirt.png` and `dirt.png.png` derive the same name `dirt`; in that
run the later texture index 1 overwrites index 0 in the mapping, and the
mapping has 1 entry while 2 textures were pasted. -/
theorem c9_name_collision :
    deriveName "dirt.png.png" = "dirt" ∧
    ("dirt.png" : String) ≠ "dirt.png.png" ∧
    deriveName "dirt.png" = deriveName "dirt.png.png" ∧
    (build_full_atlas (fun img _ _ _ => img) c9fs).map FullOut.mapping =
      some [("dirt", 1)] ∧
    (build_full_atlas (fun img _ _ _ => img) c9fs).map FullOut.n = some 2 ∧
    (1 : Nat) < 2 :=
  ⟨rfl, by decide, rfl, rfl, rfl, by decide⟩

/-! ### Determinism -/

lemma sortedPngs_eq_of_perm (l₁ l₂ : List (String × FileData))
    (hperm : l₁.Perm l₂) (hnd : (l₁.map Prod.fst).Nodup) :
    sortedPngs l₁ = sortedPngs l₂ := by
  haveI : IsTotal (String × FileData)
      (fun a b => strLeb a.1.data b.1.data = true) :=
    ⟨fun a b => strLeb_total a.1.data b.1.data⟩
  haveI : IsTrans (String × FileData)
      (fun a b => strLeb a.1.data b.1.data = true) :=
    ⟨fun a b c => strLeb_trans a.1.data b.1.data c.1.data⟩
  have hp : (sortedPngs l₁).Perm (sortedPngs l₂) := by
    unfold sortedPngs
    exact ((List.perm_insertionSort _ _).trans
      (hperm.filter (fun e : String × FileData => pyEndsWith e.1 ".png"))).trans
      (List.perm_insertionSort _ _).symm
  have hs₁ : List.Sorted (fun a b : String × FileData =>
      strLeb a.1.data b.1.data = true) (sortedPngs l₁) :=
    List.sorted_insertionSort _ _
  have hs₂ : List.Sorted (fun a b : String × FileData =>
      strLeb a.1.data b.1.data = true) (sortedPngs l₂) :=
    List.sorted_insertionSort _ _
  have hnd₁ : ((sortedPngs l₁).map Prod.fst).Nodup := by
    have hsub : ((l₁.filter (fun e => pyEndsWith e.1 ".png")).map
        Prod.fst).Sublist (l₁.map Prod.fst) :=
      List.Sublist.map Prod.fst (List.filter_sublist l₁)
    have hfil := List.Nodup.sublist hsub hnd
    exact (((List.perm_insertionSort _ _).map Prod.fst).nodup_iff).mpr hfil
  have hnd₂ : ((sortedPngs l₂).map Prod.fst).Nodup :=
    ((hp.map Prod.fst).nodup_iff).mp hnd₁
  have hpair₁ : List.Pairwise (fun a b : String × FileData =>
      strLeb a.1.data b.1.data = true ∧ a.1 ≠ b.1) (sortedPngs l₁) :=
    List.Pairwise.and hs₁ (List.pairwise_map.mp hnd₁)
  have hpair₂ : List.Pairwise (fun a b : String × FileData =>
      strLeb a.1.data b.1.data = true ∧ a.1 ≠ b.1) (sortedPngs l₂) :=
    List.Pairwise.and hs₂ (List.pairwise_map.mp hnd₂)
  haveI : IsAntisymm (String × FileData)
      (fun a b => strLeb a.1.data b.1.data = true ∧ a.1 ≠ b.1) := by
    constructor
    intro a b h1 h2
    exact absurd
      (String_eq_of_data_eq a.1 b.1 (strLeb_antisymm _ _ h1.1 h2.1)) h1.2
  exact List.eq_of_perm_of_sorted hp hpair₁ hpair₂

lemma loadAllRequired_congr (f₁ f₂ : List (String × FileData)) :
    ∀ blocks : List String,
      (∀ b ∈ blocks, lookupFile f₁ b = lookupFile f₂ b) →
      loadAllRequired f₁ blocks = loadAllRequired f₂ blocks := by
  intro blocks
  induction blocks with
  | nil => intro _; rfl
  | cons b rest ih =>
    intro h
    have hb : loadRequired f₁ b = loadRequired f₂ b := by
      unfold loadRequired
      rw [h b (List.mem_cons_self b rest)]
    simp only [loadAllRequired, hb,
      ih (fun x hx => h x (List.mem_cons_of_mem b hx))]

/-- C8: both pipelines are deterministic functions of the source directory
contents. Full mode: two runs over the same directory state produce
identical results even when `os.listdir` returns the entries in different
orders (the builder sorts), for any listing with duplicate-free file names.
Selective mode: the result depends only on the lookups of the five required
names. Identical results include byte-identical mapping tables and
pixel-identical canvases. -/
theorem c8_determinism (drawText : Image → Nat → Nat → String → Image)
    (fs₁ fs₂ : FullFS) (sfs₁ sfs₂ : SelFS)
    (hdir : fs₁.dirExists = fs₂.dirExists)
    (hperm : fs₁.listing.Perm fs₂.listing)
    (hnd : (fs₁.listing.map Prod.fst).Nodup)
    (hsdir : sfs₁.dirExists = sfs₂.dirExists)
    (hlook : ∀ b ∈ REQUIRED_BLOCKS, lookupFile sfs₁.files b = lookupFile sfs₂.files b) :
    build_full_atlas drawText fs₁ = build_full_atlas drawText fs₂ ∧
    build_atlas sfs₁ = build_atlas sfs₂ := by
  constructor
  · unfold build_full_atlas
    rw [hdir, sortedPngs_eq_of_perm fs₁.listing fs₂.listing hperm hnd]
  · unfold build_atlas
    rw [hsdir, loadAllRequired_congr sfs₁.files sfs₂.files REQUIRED_BLOCKS hlook]

/-- Witness for C8: the same two files listed in the two possible orders,
and two directories that agree on every required name. -/
theorem c8_determinism_witness :
    build_full_atlas (fun img _ _ _ => img)
      ⟨true, [("b.png", FileData.ok (Image.new 1 1 (1, 1, 1, 255))),
              ("a.png", FileData.ok (Image.new 1 1 (2, 2, 2, 255)))]⟩ =
    build_full_atlas (fun img _ _ _ => img)
      ⟨true, [("a.png", FileData.ok (Image.new 1 1 (2, 2, 2, 255))),
              ("b.png", FileData.ok (Image.new 1 1 (1, 1, 1, 255)))]⟩ ∧
    build_atlas ⟨true, []⟩ =
      build_atlas ⟨true, [("zombie.png", FileData.corrupt)]⟩ :=
  c8_determinism (fun img _ _ _ => img)
    ⟨true, [("b.png", FileData.ok (Image.new 1 1 (1, 1, 1, 255))),
            ("a.png", FileData.ok (Image.new 1 1 (2, 2, 2, 255)))]⟩
    ⟨true, [("a.png", FileData.ok (Image.new 1 1 (2, 2, 2, 255))),
            ("b.png", FileData.ok (Image.new 1 1 (1, 1, 1, 255)))]⟩
    ⟨true, []⟩ ⟨true, [("zombie.png", FileData.corrupt)]⟩
    rfl
    (List.Perm.swap ("a.png", FileData.ok (Image.new 1 1 (2, 2, 2, 255)))
      ("b.png", FileData.ok (Image.new 1 1 (1, 1, 1, 255))) [])
    (by decide) rfl
    (by intro b hb; fin_cases hb <;> rfl)

end BrokeCraft
